import Mathlib

/-!
Shallow embedding of the casper-sidecar supervisor (`src/sidecar/src/main.rs`):
the per-source SSE processor (`handle_single_event`, `sse_processor`), the
broadcaster task (`event_broadcasting`), the listening task, and the supervisor
join (`run`).  Payload fields of event variants are abstracted to `Nat`; the
source tag is a `String`; the sqlite database and the `EventStreamServer`
constructor are oracles, since their implementations live outside the
translated file.  Effects (db writes, outbound sends, log lines) are recorded
as an explicit trace.
-/

/-- The tagged union of inbound SSE payloads (Rust `SseData`).  Payload
contents are abstracted to `Nat` identifiers; only their identity matters. -/
inductive SseData where
  | apiVersion (version : Nat)
  | blockAdded (block_hash : Nat) (block : Nat)
  | deployAccepted (deploy : Nat)
  | deployExpired (deploy_hash : Nat)
  | deployProcessed (deploy_hash : Nat) (account : Nat) (timestamp : Nat) (ttl : Nat)
      (dependencies : Nat) (block_hash : Nat) (execution_result : Nat)
  | fault (era_id : Nat) (timestamp : Nat) (public_key : Nat)
  | finalitySignature (fs : Nat)
  | step (era_id : Nat) (execution_effect : Nat)
  | shutdown
deriving DecidableEq, Repr

/-- An inbound event envelope (Rust `SseEvent`): payload, optional arrival id,
source tag. -/
structure SseEvent where
  id : Option Nat
  data : SseData
  source : String
deriving DecidableEq, Repr

/-- Rust `DatabaseWriteError`: the two outcomes the processor distinguishes,
each carrying opaque error data. -/
inductive DatabaseWriteError where
  | uniqueConstraint (uc_err : Nat)
  | other (other_err : Nat)
deriving DecidableEq, Repr

/-- The per-variant persistence operations of the durable log
(`save_block_added`, ..., `save_step`). -/
inductive DbOp where
  | saveBlockAdded
  | saveDeployAccepted
  | saveDeployExpired
  | saveDeployProcessed
  | saveFault
  | saveFinalitySignature
  | saveStep
deriving DecidableEq, Repr

/-- The sqlite database, as an oracle: given the operation, the saved payload,
the arrival id and the source tag, it returns `Ok(rows)` or a
`DatabaseWriteError`.  Its implementation is outside the translated file, so
theorems quantify over it. -/
def DbOracle : Type := DbOp → SseData → Option Nat → String → Except DatabaseWriteError Nat

/-- Log levels used by the processor. -/
inductive LogLevel where
  | info
  | debug
  | warn
  | traceLvl
deriving DecidableEq, Repr

deriving instance DecidableEq for Except

/-- One observable effect of the processor: a log line, a durable-log write
(with its result), or an outbound send attempt (with whether the channel
accepted it, i.e. whether the receiver was still alive). -/
inductive Effect where
  | log (level : LogLevel) (msg : String)
  | dbWrite (op : DbOp) (res : Except DatabaseWriteError Nat)
  | send (data : SseData) (accepted : Bool)
deriving DecidableEq, Repr

/-- Translation of `handle_single_event` from `main.rs`: one match arm per
`SseData` variant.  `outbound_send_ok` models whether
`outbound_sse_data_sender.send(..).await` succeeds; its result is recorded in
the trace but (as in the source, `let _ = ...`) never branches the control
flow.  The function returns the trace of effects. -/
def handle_single_event (sse_event : SseEvent) (sqlite_database : DbOracle)
    (enable_event_logging : Bool) (outbound_send_ok : SseData → Bool) : List Effect :=
  match sse_event.data with
  | SseData.apiVersion _version =>
      if enable_event_logging then [Effect.log LogLevel.info "API Version"] else []
  | SseData.blockAdded block_hash block =>
      (if enable_event_logging then
        [Effect.log LogLevel.info "Block Added", Effect.log LogLevel.debug "Block Added"]
      else []) ++
      (let res := sqlite_database DbOp.saveBlockAdded (SseData.blockAdded block_hash block)
          sse_event.id sse_event.source
      Effect.dbWrite DbOp.saveBlockAdded res ::
      match res with
      | Except.ok _ =>
          [Effect.send (SseData.blockAdded block_hash block)
            (outbound_send_ok (SseData.blockAdded block_hash block))]
      | Except.error (DatabaseWriteError.uniqueConstraint _uc_err) =>
          [Effect.log LogLevel.debug "Already received BlockAdded, logged in event_log",
           Effect.log LogLevel.traceLvl "uc_err"]
      | Except.error (DatabaseWriteError.other _other_err) =>
          [Effect.log LogLevel.warn "Unexpected error saving BlockAdded"])
  | SseData.deployAccepted deploy =>
      (if enable_event_logging then
        [Effect.log LogLevel.info "Deploy Accepted", Effect.log LogLevel.debug "Deploy Accepted"]
      else []) ++
      (let res := sqlite_database DbOp.saveDeployAccepted (SseData.deployAccepted deploy)
          sse_event.id sse_event.source
      Effect.dbWrite DbOp.saveDeployAccepted res ::
      match res with
      | Except.ok _ =>
          [Effect.send (SseData.deployAccepted deploy)
            (outbound_send_ok (SseData.deployAccepted deploy))]
      | Except.error (DatabaseWriteError.uniqueConstraint _uc_err) =>
          [Effect.log LogLevel.debug "Already received DeployAccepted, logged in event_log",
           Effect.log LogLevel.traceLvl "uc_err"]
      | Except.error (DatabaseWriteError.other _other_err) =>
          [Effect.log LogLevel.warn "Unexpected error saving DeployAccepted"])
  | SseData.deployExpired deploy_hash =>
      (if enable_event_logging then
        [Effect.log LogLevel.info "Deploy Expired", Effect.log LogLevel.debug "Deploy Expired"]
      else []) ++
      (let res := sqlite_database DbOp.saveDeployExpired (SseData.deployExpired deploy_hash)
          sse_event.id sse_event.source
      Effect.dbWrite DbOp.saveDeployExpired res ::
      match res with
      | Except.ok _ =>
          [Effect.send (SseData.deployExpired deploy_hash)
            (outbound_send_ok (SseData.deployExpired deploy_hash))]
      | Except.error (DatabaseWriteError.uniqueConstraint _uc_err) =>
          [Effect.log LogLevel.debug "Already received DeployExpired, logged in event_log",
           Effect.log LogLevel.traceLvl "uc_err"]
      | Except.error (DatabaseWriteError.other _other_err) =>
          [Effect.log LogLevel.warn "Unexpected error saving DeployExpired"])
  | SseData.deployProcessed deploy_hash account timestamp ttl dependencies block_hash
      execution_result =>
      (if enable_event_logging then
        [Effect.log LogLevel.info "Deploy Processed", Effect.log LogLevel.debug "Deploy Processed"]
      else []) ++
      (let res := sqlite_database DbOp.saveDeployProcessed
          (SseData.deployProcessed deploy_hash account timestamp ttl dependencies block_hash
            execution_result) sse_event.id sse_event.source
      Effect.dbWrite DbOp.saveDeployProcessed res ::
      match res with
      | Except.ok _ =>
          [Effect.send
            (SseData.deployProcessed deploy_hash account timestamp ttl dependencies block_hash
              execution_result)
            (outbound_send_ok
              (SseData.deployProcessed deploy_hash account timestamp ttl dependencies block_hash
                execution_result))]
      | Except.error (DatabaseWriteError.uniqueConstraint _uc_err) =>
          [Effect.log LogLevel.debug "Already received DeployProcessed, logged in event_log",
           Effect.log LogLevel.traceLvl "uc_err"]
      | Except.error (DatabaseWriteError.other _other_err) =>
          [Effect.log LogLevel.warn "Unexpected error saving DeployProcessed"])
  | SseData.fault era_id timestamp public_key =>
      Effect.log LogLevel.warn "Fault reported" ::
      (let res := sqlite_database DbOp.saveFault (SseData.fault era_id timestamp public_key)
          sse_event.id sse_event.source
      Effect.dbWrite DbOp.saveFault res ::
      match res with
      | Except.ok _ =>
          [Effect.send (SseData.fault era_id timestamp public_key)
            (outbound_send_ok (SseData.fault era_id timestamp public_key))]
      | Except.error (DatabaseWriteError.uniqueConstraint _uc_err) =>
          [Effect.log LogLevel.debug "Already received Fault, logged in event_log",
           Effect.log LogLevel.traceLvl "uc_err"]
      | Except.error (DatabaseWriteError.other _other_err) =>
          [Effect.log LogLevel.warn "Unexpected error saving Fault"])
  | SseData.finalitySignature fs =>
      (if enable_event_logging then [Effect.log LogLevel.debug "Finality Signature"] else []) ++
      (let res := sqlite_database DbOp.saveFinalitySignature (SseData.finalitySignature fs)
          sse_event.id sse_event.source
      Effect.dbWrite DbOp.saveFinalitySignature res ::
      match res with
      | Except.ok _ =>
          [Effect.send (SseData.finalitySignature fs)
            (outbound_send_ok (SseData.finalitySignature fs))]
      | Except.error (DatabaseWriteError.uniqueConstraint _uc_err) =>
          [Effect.log LogLevel.debug "Already received FinalitySignature, logged in event_log",
           Effect.log LogLevel.traceLvl "uc_err"]
      | Except.error (DatabaseWriteError.other _other_err) =>
          [Effect.log LogLevel.warn "Unexpected error saving FinalitySignature"])
  | SseData.step era_id execution_effect =>
      (if enable_event_logging then [Effect.log LogLevel.info "Step at era"] else []) ++
      (let res := sqlite_database DbOp.saveStep (SseData.step era_id execution_effect)
          sse_event.id sse_event.source
      Effect.dbWrite DbOp.saveStep res ::
      match res with
      | Except.ok _ =>
          [Effect.send (SseData.step era_id execution_effect)
            (outbound_send_ok (SseData.step era_id execution_effect))]
      | Except.error (DatabaseWriteError.uniqueConstraint _uc_err) =>
          [Effect.log LogLevel.debug "Already received Step, logged in event_log",
           Effect.log LogLevel.traceLvl "uc_err"]
      | Except.error (DatabaseWriteError.other _other_err) =>
          [Effect.log LogLevel.warn "Unexpected error saving Step"])
  | SseData.shutdown =>
      [Effect.log LogLevel.warn ("Node (" ++ sse_event.source ++ ") is unavailable")]

/-- Translation of the receive loop of `sse_processor`: the processor dequeues
events one at a time and fully handles each before taking the next, until the
inbound queue closes.  The inbound queue's content is the list `events`. -/
def sse_processor (events : List SseEvent) (sqlite_database : DbOracle)
    (enable_event_logging : Bool) (outbound_send_ok : SseData → Bool) : List Effect :=
  match events with
  | [] => []
  | e :: rest =>
      handle_single_event e sqlite_database enable_event_logging outbound_send_ok ++
      sse_processor rest sqlite_database enable_event_logging outbound_send_ok

/-- The payloads sent on the outbound channel, in order, extracted from a
trace. -/
def sends (tr : List Effect) : List SseData :=
  tr.filterMap fun a =>
    match a with
    | Effect.send d _ => some d
    | _ => none

/-- The send actions of a trace (payload together with acceptance flag). -/
def sendActions (tr : List Effect) : List Effect :=
  tr.filter fun a =>
    match a with
    | Effect.send _ _ => true
    | _ => false

/-- The durable-log writes of a trace: operation and result, in order. -/
def dbWrites (tr : List Effect) : List (DbOp × Except DatabaseWriteError Nat) :=
  tr.filterMap fun a =>
    match a with
    | Effect.dbWrite op res => some (op, res)
    | _ => none

/-- A trace with send-acceptance flags erased: the trace up to whether the
outbound channel accepted each send. -/
def eraseSendFlags (tr : List Effect) : List Effect :=
  tr.map fun a =>
    match a with
    | Effect.send d _ => Effect.send d true
    | x => x

/-- The persistence operation matching an event variant; `none` for the two
variants without one (`ApiVersion`, `Shutdown`). -/
def saveOp : SseData → Option DbOp
  | SseData.apiVersion _ => none
  | SseData.blockAdded _ _ => some DbOp.saveBlockAdded
  | SseData.deployAccepted _ => some DbOp.saveDeployAccepted
  | SseData.deployExpired _ => some DbOp.saveDeployExpired
  | SseData.deployProcessed _ _ _ _ _ _ _ => some DbOp.saveDeployProcessed
  | SseData.fault _ _ _ => some DbOp.saveFault
  | SseData.finalitySignature _ => some DbOp.saveFinalitySignature
  | SseData.step _ _ => some DbOp.saveStep
  | SseData.shutdown => none

/-- The result the durable log returns for an event: `none` when the variant
has no persistence operation. -/
def writeResult (db : DbOracle) (e : SseEvent) : Option (Except DatabaseWriteError Nat) :=
  (saveOp e.data).map fun op => db op e.data e.id e.source

/-- Whether the event's durable-log write returns ok. -/
def writeOk (db : DbOracle) (e : SseEvent) : Bool :=
  match writeResult db e with
  | some (Except.ok _) => true
  | _ => false

/-- The broadcaster's abstract view of the `EventStreamServer`: only the agreed
API version it was constructed with matters here; the server implementation is
outside the translated file. -/
structure EventStreamServer where
  api_version : Nat
deriving DecidableEq, Repr

/-- Translation of the collection loop of the broadcaster task: reports are
received in order until the channel closes; an `Ok` version is pushed, the
first `Err` report is returned immediately (reports after it are never
received). -/
def collect_api_versions : List (Except String Nat) → Except String (List Nat)
  | [] => Except.ok []
  | Except.ok version :: rest =>
      (collect_api_versions rest).map fun versions => version :: versions
  | Except.error err :: _ => Except.error err

/-- Translation of the version-agreement test
`api_versions.windows(2).all(|window| window[0] == window[1])`: every adjacent
pair of the collected list is equal. -/
def api_versions_match : List Nat → Bool
  | v0 :: v1 :: rest => v0 == v1 && api_versions_match (v1 :: rest)
  | _ => true

/-- The error message for mismatched API versions. -/
def mismatchErrorMsg : String :=
  "Could not start Event Stream Server due to inbound streams with mismatched API Versions"

/-- The error message for an empty collection of API-version reports. -/
def noSourcesErrorMsg : String :=
  "Could not start Event Stream Server - no inbound streams reported API version"

/-- The error message the broadcaster returns once the outbound channel is
exhausted. -/
def broadcastingFinishedMsg : String := "Event broadcasting finished"

/-- The error message the listening task returns once all ingestion tasks
complete. -/
def nodesUnavailableMsg : String := "Connected node(s) are unavailable"

/-- The error message when constructing the `EventStreamServer` fails. -/
def serverStartErrorMsg : String := "Error starting EventStreamServer"

/-- The outcome of one run of the broadcaster task: the server it constructed
(if it got that far), the payloads it broadcast, and the task's result. -/
structure BroadcastRun where
  server : Option EventStreamServer
  broadcasted : List SseData
  result : Except String Unit
deriving DecidableEq, Repr

/-- Translation of the body of `event_broadcasting_handle` in `run`: collect
the API-version reports; on the first `Err` return it as-is; then test
adjacent-pair agreement (mismatch error on failure), then emptiness
(no-sources error); otherwise construct the `EventStreamServer` with
`api_versions[0]` (`event_stream_server_new` is the oracle for the external
constructor) and broadcast every payload of the outbound channel, finally
returning the broadcasting-finished error. -/
def event_broadcasting (reports : List (Except String Nat))
    (event_stream_server_new : Nat → Except String EventStreamServer)
    (outbound : List SseData) : BroadcastRun :=
  match collect_api_versions reports with
  | Except.error err => ⟨none, [], Except.error err⟩
  | Except.ok api_versions =>
      if api_versions_match api_versions = false then
        ⟨none, [], Except.error mismatchErrorMsg⟩
      else
        match api_versions with
        | [] => ⟨none, [], Except.error noSourcesErrorMsg⟩
        | v0 :: _ =>
            match event_stream_server_new v0 with
            | Except.error _ => ⟨none, [], Except.error serverStartErrorMsg⟩
            | Except.ok server => ⟨some server, outbound, Except.error broadcastingFinishedMsg⟩

/-- Translation of the listening task: it runs every per-source processor to
completion (each source is an inbound event list paired with its
`enable_logging` flag), then returns the nodes-unavailable error. -/
def listening_task (sources : List (List SseEvent × Bool)) (sqlite_database : DbOracle)
    (outbound_send_ok : SseData → Bool) : List (List Effect) × Except String Unit :=
  (sources.map fun s => sse_processor s.1 sqlite_database s.2 outbound_send_ok,
   Except.error nodesUnavailableMsg)

/-- Translation of `tokio::try_join!` over the three pillar tasks, in the
argument order of the source (`event_broadcasting_handle`,
`rest_server_handle`, `listening_task_handle`): the first error in that order
is the result, and `Ok` requires all three to be `Ok`. -/
def try_join3 (a b c : Except String Unit) : Except String (Unit × Unit × Unit) :=
  match a with
  | Except.error e => Except.error e
  | Except.ok u1 =>
      match b with
      | Except.error e => Except.error e
      | Except.ok u2 =>
          match c with
          | Except.error e => Except.error e
          | Except.ok u3 => Except.ok (u1, u2, u3)

/-- Translation of the tail of `run`: join the three pillar results and map a
joint success to `Ok(())`.  The REST collaborator's result `rest_result` is an
oracle (its implementation is outside the translated file). -/
def run_result (reports : List (Except String Nat))
    (event_stream_server_new : Nat → Except String EventStreamServer)
    (outbound : List SseData) (rest_result : Except String Unit)
    (sources : List (List SseEvent × Bool)) (sqlite_database : DbOracle)
    (outbound_send_ok : SseData → Bool) : Except String Unit :=
  match try_join3 (event_broadcasting reports event_stream_server_new outbound).result
      rest_result (listening_task sources sqlite_database outbound_send_ok).2 with
  | Except.error e => Except.error e
  | Except.ok _ => Except.ok ()

/-- A database oracle whose writes all succeed. -/
def dbAllOk : DbOracle := fun _ _ _ _ => Except.ok 1

/-- A database oracle whose writes all fail with a unique-constraint
violation. -/
def dbAllUC : DbOracle := fun _ _ _ _ =>
  Except.error (DatabaseWriteError.uniqueConstraint 0)

/-- A database oracle whose writes all fail with an other-failure. -/
def dbAllOther : DbOracle := fun _ _ _ _ => Except.error (DatabaseWriteError.other 0)

/-- An `EventStreamServer` constructor oracle that always succeeds. -/
def serverNewOk : Nat → Except String EventStreamServer := fun v => Except.ok ⟨v⟩

/-- The payloads `handle_single_event` sends outbound: exactly the event's payload when its durable-log write returns ok, nothing otherwise. -/
theorem sends_handle_single_event (e : SseEvent) (db : DbOracle) (l : Bool)
    (acc : SseData → Bool) :
    sends (handle_single_event e db l acc) = if writeOk db e then [e.data] else [] := by
  obtain ⟨id, data, source⟩ := e
  cases data with
  | apiVersion v => cases l <;> rfl
  | shutdown => cases l <;> rfl
  | blockAdded bh b =>
      cases hdb : db DbOp.saveBlockAdded (SseData.blockAdded bh b) id source with
      | ok n => cases l <;> simp [handle_single_event, sends, writeOk, writeResult, saveOp, hdb]
      | error err =>
          cases err <;> cases l <;>
            simp [handle_single_event, sends, writeOk, writeResult, saveOp, hdb]
  | deployAccepted d =>
      cases hdb : db DbOp.saveDeployAccepted (SseData.deployAccepted d) id source with
      | ok n => cases l <;> simp [handle_single_event, sends, writeOk, writeResult, saveOp, hdb]
      | error err =>
          cases err <;> cases l <;>
            simp [handle_single_event, sends, writeOk, writeResult, saveOp, hdb]
  | deployExpired dh =>
      cases hdb : db DbOp.saveDeployExpired (SseData.deployExpired dh) id source with
      | ok n => cases l <;> simp [handle_single_event, sends, writeOk, writeResult, saveOp, hdb]
      | error err =>
          cases err <;> cases l <;>
            simp [handle_single_event, sends, writeOk, writeResult, saveOp, hdb]
  | deployProcessed dh a t ttl dep bh er =>
      cases hdb : db DbOp.saveDeployProcessed (SseData.deployProcessed dh a t ttl dep bh er) id source with
      | ok n => cases l <;> simp [handle_single_event, sends, writeOk, writeResult, saveOp, hdb]
      | error err =>
          cases err <;> cases l <;>
            simp [handle_single_event, sends, writeOk, writeResult, saveOp, hdb]
  | fault e1 t pk =>
      cases hdb : db DbOp.saveFault (SseData.fault e1 t pk) id source with
      | ok n => cases l <;> simp [handle_single_event, sends, writeOk, writeResult, saveOp, hdb]
      | error err =>
          cases err <;> cases l <;>
            simp [handle_single_event, sends, writeOk, writeResult, saveOp, hdb]
  | finalitySignature fs =>
      cases hdb : db DbOp.saveFinalitySignature (SseData.finalitySignature fs) id source with
      | ok n => cases l <;> simp [handle_single_event, sends, writeOk, writeResult, saveOp, hdb]
      | error err =>
          cases err <;> cases l <;>
            simp [handle_single_event, sends, writeOk, writeResult, saveOp, hdb]
  | step e1 ex =>
      cases hdb : db DbOp.saveStep (SseData.step e1 ex) id source with
      | ok n => cases l <;> simp [handle_single_event, sends, writeOk, writeResult, saveOp, hdb]
      | error err =>
          cases err <;> cases l <;>
            simp [handle_single_event, sends, writeOk, writeResult, saveOp, hdb]

/-- The durable-log writes `handle_single_event` performs: exactly the matching persistence operation on the event's payload, arrival id and source when the variant has one, and none otherwise. -/
theorem dbWrites_handle_single_event (e : SseEvent) (db : DbOracle) (l : Bool)
    (acc : SseData → Bool) :
    dbWrites (handle_single_event e db l acc) =
      (match saveOp e.data with
      | none => []
      | some op => [(op, db op e.data e.id e.source)]) := by
  obtain ⟨id, data, source⟩ := e
  cases data with
  | apiVersion v => cases l <;> rfl
  | shutdown => cases l <;> rfl
  | blockAdded bh b =>
      cases hdb : db DbOp.saveBlockAdded (SseData.blockAdded bh b) id source with
      | ok n => cases l <;> simp [handle_single_event, dbWrites, saveOp, hdb]
      | error err =>
          cases err <;> cases l <;>
            simp [handle_single_event, dbWrites, saveOp, hdb]
  | deployAccepted d =>
      cases hdb : db DbOp.saveDeployAccepted (SseData.deployAccepted d) id source with
      | ok n => cases l <;> simp [handle_single_event, dbWrites, saveOp, hdb]
      | error err =>
          cases err <;> cases l <;>
            simp [handle_single_event, dbWrites, saveOp, hdb]
  | deployExpired dh =>
      cases hdb : db DbOp.saveDeployExpired (SseData.deployExpired dh) id source with
      | ok n => cases l <;> simp [handle_single_event, dbWrites, saveOp, hdb]
      | error err =>
          cases err <;> cases l <;>
            simp [handle_single_event, dbWrites, saveOp, hdb]
  | deployProcessed dh a t ttl dep bh er =>
      cases hdb : db DbOp.saveDeployProcessed (SseData.deployProcessed dh a t ttl dep bh er) id source with
      | ok n => cases l <;> simp [handle_single_event, dbWrites, saveOp, hdb]
      | error err =>
          cases err <;> cases l <;>
            simp [handle_single_event, dbWrites, saveOp, hdb]
  | fault e1 t pk =>
      cases hdb : db DbOp.saveFault (SseData.fault e1 t pk) id source with
      | ok n => cases l <;> simp [handle_single_event, dbWrites, saveOp, hdb]
      | error err =>
          cases err <;> cases l <;>
            simp [handle_single_event, dbWrites, saveOp, hdb]
  | finalitySignature fs =>
      cases hdb : db DbOp.saveFinalitySignature (SseData.finalitySignature fs) id source with
      | ok n => cases l <;> simp [handle_single_event, dbWrites, saveOp, hdb]
      | error err =>
          cases err <;> cases l <;>
            simp [handle_single_event, dbWrites, saveOp, hdb]
  | step e1 ex =>
      cases hdb : db DbOp.saveStep (SseData.step e1 ex) id source with
      | ok n => cases l <;> simp [handle_single_event, dbWrites, saveOp, hdb]
      | error err =>
          cases err <;> cases l <;>
            simp [handle_single_event, dbWrites, saveOp, hdb]

/-- The send attempts of `handle_single_event`: exactly one, carrying the event's payload and the channel's acceptance flag, when the write returns ok; none otherwise. -/
theorem sendActions_handle_single_event (e : SseEvent) (db : DbOracle) (l : Bool)
    (acc : SseData → Bool) :
    sendActions (handle_single_event e db l acc) =
      if writeOk db e then [Effect.send e.data (acc e.data)] else [] := by
  obtain ⟨id, data, source⟩ := e
  cases data with
  | apiVersion v => cases l <;> rfl
  | shutdown => cases l <;> rfl
  | blockAdded bh b =>
      cases hdb : db DbOp.saveBlockAdded (SseData.blockAdded bh b) id source with
      | ok n => cases l <;> simp [handle_single_event, sendActions, writeOk, writeResult, saveOp, hdb]
      | error err =>
          cases err <;> cases l <;>
            simp [handle_single_event, sendActions, writeOk, writeResult, saveOp, hdb]
  | deployAccepted d =>
      cases hdb : db DbOp.saveDeployAccepted (SseData.deployAccepted d) id source with
      | ok n => cases l <;> simp [handle_single_event, sendActions, writeOk, writeResult, saveOp, hdb]
      | error err =>
          cases err <;> cases l <;>
            simp [handle_single_event, sendActions, writeOk, writeResult, saveOp, hdb]
  | deployExpired dh =>
      cases hdb : db DbOp.saveDeployExpired (SseData.deployExpired dh) id source with
      | ok n => cases l <;> simp [handle_single_event, sendActions, writeOk, writeResult, saveOp, hdb]
      | error err =>
          cases err <;> cases l <;>
            simp [handle_single_event, sendActions, writeOk, writeResult, saveOp, hdb]
  | deployProcessed dh a t ttl dep bh er =>
      cases hdb : db DbOp.saveDeployProcessed (SseData.deployProcessed dh a t ttl dep bh er) id source with
      | ok n => cases l <;> simp [handle_single_event, sendActions, writeOk, writeResult, saveOp, hdb]
      | error err =>
          cases err <;> cases l <;>
            simp [handle_single_event, sendActions, writeOk, writeResult, saveOp, hdb]
  | fault e1 t pk =>
      cases hdb : db DbOp.saveFault (SseData.fault e1 t pk) id source with
      | ok n => cases l <;> simp [handle_single_event, sendActions, writeOk, writeResult, saveOp, hdb]
      | error err =>
          cases err <;> cases l <;>
            simp [handle_single_event, sendActions, writeOk, writeResult, saveOp, hdb]
  | finalitySignature fs =>
      cases hdb : db DbOp.saveFinalitySignature (SseData.finalitySignature fs) id source with
      | ok n => cases l <;> simp [handle_single_event, sendActions, writeOk, writeResult, saveOp, hdb]
      | error err =>
          cases err <;> cases l <;>
            simp [handle_single_event, sendActions, writeOk, writeResult, saveOp, hdb]
  | step e1 ex =>
      cases hdb : db DbOp.saveStep (SseData.step e1 ex) id source with
      | ok n => cases l <;> simp [handle_single_event, sendActions, writeOk, writeResult, saveOp, hdb]
      | error err =>
          cases err <;> cases l <;>
            simp [handle_single_event, sendActions, writeOk, writeResult, saveOp, hdb]
/-- The trace of `handle_single_event` does not depend on whether the outbound channel accepts the sends, except for the recorded acceptance flag itself. -/
theorem eraseSendFlags_handle_single_event (e : SseEvent) (db : DbOracle) (l : Bool)
    (acc acc2 : SseData → Bool) :
    eraseSendFlags (handle_single_event e db l acc) =
      eraseSendFlags (handle_single_event e db l acc2) := by
  obtain ⟨id, data, source⟩ := e
  cases data with
  | apiVersion v => cases l <;> rfl
  | shutdown => cases l <;> rfl
  | blockAdded bh b =>
      cases hdb : db DbOp.saveBlockAdded (SseData.blockAdded bh b) id source with
      | ok n => cases l <;> simp [handle_single_event, eraseSendFlags, hdb]
      | error err =>
          cases err <;> cases l <;>
            simp [handle_single_event, eraseSendFlags, hdb]
  | deployAccepted d =>
      cases hdb : db DbOp.saveDeployAccepted (SseData.deployAccepted d) id source with
      | ok n => cases l <;> simp [handle_single_event, eraseSendFlags, hdb]
      | error err =>
          cases err <;> cases l <;>
            simp [handle_single_event, eraseSendFlags, hdb]
  | deployExpired dh =>
      cases hdb : db DbOp.saveDeployExpired (SseData.deployExpired dh) id source with
      | ok n => cases l <;> simp [handle_single_event, eraseSendFlags, hdb]
      | error err =>
          cases err <;> cases l <;>
            simp [handle_single_event, eraseSendFlags, hdb]
  | deployProcessed dh a t ttl dep bh er =>
      cases hdb : db DbOp.saveDeployProcessed (SseData.deployProcessed dh a t ttl dep bh er) id source with
      | ok n => cases l <;> simp [handle_single_event, eraseSendFlags, hdb]
      | error err =>
          cases err <;> cases l <;>
            simp [handle_single_event, eraseSendFlags, hdb]
  | fault e1 t pk =>
      cases hdb : db DbOp.saveFault (SseData.fault e1 t pk) id source with
      | ok n => cases l <;> simp [handle_single_event, eraseSendFlags, hdb]
      | error err =>
          cases err <;> cases l <;>
            simp [handle_single_event, eraseSendFlags, hdb]
  | finalitySignature fs =>
      cases hdb : db DbOp.saveFinalitySignature (SseData.finalitySignature fs) id source with
      | ok n => cases l <;> simp [handle_single_event, eraseSendFlags, hdb]
      | error err =>
          cases err <;> cases l <;>
            simp [handle_single_event, eraseSendFlags, hdb]
  | step e1 ex =>
      cases hdb : db DbOp.saveStep (SseData.step e1 ex) id source with
      | ok n => cases l <;> simp [handle_single_event, eraseSendFlags, hdb]
      | error err =>
          cases err <;> cases l <;>
            simp [handle_single_event, eraseSendFlags, hdb]
/-- For an event variant with a persistence operation, the trace of `handle_single_event` splits as log lines, then the matching durable-log write on the event's payload, arrival id and source, then the branch on the write outcome: no send and no other write precedes it, and no write follows it. -/
theorem handle_single_event_write_before_branch (e : SseEvent) (db : DbOracle) (l : Bool)
    (acc : SseData → Bool) (op : DbOp) (hop : saveOp e.data = some op) :
    ∃ pre post, handle_single_event e db l acc =
        pre ++ Effect.dbWrite op (db op e.data e.id e.source) :: post ∧
      sends pre = [] ∧ dbWrites pre = [] ∧ dbWrites post = [] := by
  obtain ⟨id, data, source⟩ := e
  cases data with
  | apiVersion v => exact absurd hop (by simp [saveOp])
  | shutdown => exact absurd hop (by simp [saveOp])
  | blockAdded bh b =>
      obtain rfl : DbOp.saveBlockAdded = op := by
        simpa [saveOp] using hop
      cases hdb : db DbOp.saveBlockAdded (SseData.blockAdded bh b) id source with
      | ok n =>
          refine ⟨(if l then [Effect.log LogLevel.info "Block Added", Effect.log LogLevel.debug "Block Added"] else []),
            [Effect.send (SseData.blockAdded bh b) (acc (SseData.blockAdded bh b))], ?_, ?_, ?_, ?_⟩
          · simp [handle_single_event, hdb]
          · cases l <;> rfl
          · cases l <;> rfl
          · rfl
      | error err =>
          cases err with
          | uniqueConstraint u =>
              refine ⟨(if l then [Effect.log LogLevel.info "Block Added", Effect.log LogLevel.debug "Block Added"] else []),
                [Effect.log LogLevel.debug "Already received BlockAdded, logged in event_log",
              Effect.log LogLevel.traceLvl "uc_err"], ?_, ?_, ?_, ?_⟩
              · simp [handle_single_event, hdb]
              · cases l <;> rfl
              · cases l <;> rfl
              · rfl
          | other o =>
              refine ⟨(if l then [Effect.log LogLevel.info "Block Added", Effect.log LogLevel.debug "Block Added"] else []),
                [Effect.log LogLevel.warn "Unexpected error saving BlockAdded"], ?_, ?_, ?_, ?_⟩
              · simp [handle_single_event, hdb]
              · cases l <;> rfl
              · cases l <;> rfl
              · rfl
  | deployAccepted d =>
      obtain rfl : DbOp.saveDeployAccepted = op := by
        simpa [saveOp] using hop
      cases hdb : db DbOp.saveDeployAccepted (SseData.deployAccepted d) id source with
      | ok n =>
          refine ⟨(if l then [Effect.log LogLevel.info "Deploy Accepted", Effect.log LogLevel.debug "Deploy Accepted"] else []),
            [Effect.send (SseData.deployAccepted d) (acc (SseData.deployAccepted d))], ?_, ?_, ?_, ?_⟩
          · simp [handle_single_event, hdb]
          · cases l <;> rfl
          · cases l <;> rfl
          · rfl
      | error err =>
          cases err with
          | uniqueConstraint u =>
              refine ⟨(if l then [Effect.log LogLevel.info "Deploy Accepted", Effect.log LogLevel.debug "Deploy Accepted"] else []),
                [Effect.log LogLevel.debug "Already received DeployAccepted, logged in event_log",
              Effect.log LogLevel.traceLvl "uc_err"], ?_, ?_, ?_, ?_⟩
              · simp [handle_single_event, hdb]
              · cases l <;> rfl
              · cases l <;> rfl
              · rfl
          | other o =>
              refine ⟨(if l then [Effect.log LogLevel.info "Deploy Accepted", Effect.log LogLevel.debug "Deploy Accepted"] else []),
                [Effect.log LogLevel.warn "Unexpected error saving DeployAccepted"], ?_, ?_, ?_, ?_⟩
              · simp [handle_single_event, hdb]
              · cases l <;> rfl
              · cases l <;> rfl
              · rfl
  | deployExpired dh =>
      obtain rfl : DbOp.saveDeployExpired = op := by
        simpa [saveOp] using hop
      cases hdb : db DbOp.saveDeployExpired (SseData.deployExpired dh) id source with
      | ok n =>
          refine ⟨(if l then [Effect.log LogLevel.info "Deploy Expired", Effect.log LogLevel.debug "Deploy Expired"] else []),
            [Effect.send (SseData.deployExpired dh) (acc (SseData.deployExpired dh))], ?_, ?_, ?_, ?_⟩
          · simp [handle_single_event, hdb]
          · cases l <;> rfl
          · cases l <;> rfl
          · rfl
      | error err =>
          cases err with
          | uniqueConstraint u =>
              refine ⟨(if l then [Effect.log LogLevel.info "Deploy Expired", Effect.log LogLevel.debug "Deploy Expired"] else []),
                [Effect.log LogLevel.debug "Already received DeployExpired, logged in event_log",
              Effect.log LogLevel.traceLvl "uc_err"], ?_, ?_, ?_, ?_⟩
              · simp [handle_single_event, hdb]
              · cases l <;> rfl
              · cases l <;> rfl
              · rfl
          | other o =>
              refine ⟨(if l then [Effect.log LogLevel.info "Deploy Expired", Effect.log LogLevel.debug "Deploy Expired"] else []),
                [Effect.log LogLevel.warn "Unexpected error saving DeployExpired"], ?_, ?_, ?_, ?_⟩
              · simp [handle_single_event, hdb]
              · cases l <;> rfl
              · cases l <;> rfl
              · rfl
  | deployProcessed dh a t ttl dep bh er =>
      obtain rfl : DbOp.saveDeployProcessed = op := by
        simpa [saveOp] using hop
      cases hdb : db DbOp.saveDeployProcessed (SseData.deployProcessed dh a t ttl dep bh er) id source with
      | ok n =>
          refine ⟨(if l then [Effect.log LogLevel.info "Deploy Processed", Effect.log LogLevel.debug "Deploy Processed"] else []),
            [Effect.send (SseData.deployProcessed dh a t ttl dep bh er) (acc (SseData.deployProcessed dh a t ttl dep bh er))], ?_, ?_, ?_, ?_⟩
          · simp [handle_single_event, hdb]
          · cases l <;> rfl
          · cases l <;> rfl
          · rfl
      | error err =>
          cases err with
          | uniqueConstraint u =>
              refine ⟨(if l then [Effect.log LogLevel.info "Deploy Processed", Effect.log LogLevel.debug "Deploy Processed"] else []),
                [Effect.log LogLevel.debug "Already received DeployProcessed, logged in event_log",
              Effect.log LogLevel.traceLvl "uc_err"], ?_, ?_, ?_, ?_⟩
              · simp [handle_single_event, hdb]
              · cases l <;> rfl
              · cases l <;> rfl
              · rfl
          | other o =>
              refine ⟨(if l then [Effect.log LogLevel.info "Deploy Processed", Effect.log LogLevel.debug "Deploy Processed"] else []),
                [Effect.log LogLevel.warn "Unexpected error saving DeployProcessed"], ?_, ?_, ?_, ?_⟩
              · simp [handle_single_event, hdb]
              · cases l <;> rfl
              · cases l <;> rfl
              · rfl
  | fault e1 t pk =>
      obtain rfl : DbOp.saveFault = op := by
        simpa [saveOp] using hop
      cases hdb : db DbOp.saveFault (SseData.fault e1 t pk) id source with
      | ok n =>
          refine ⟨[Effect.log LogLevel.warn "Fault reported"],
            [Effect.send (SseData.fault e1 t pk) (acc (SseData.fault e1 t pk))], ?_, ?_, ?_, ?_⟩
          · simp [handle_single_event, hdb]
          · cases l <;> rfl
          · cases l <;> rfl
          · rfl
      | error err =>
          cases err with
          | uniqueConstraint u =>
              refine ⟨[Effect.log LogLevel.warn "Fault reported"],
                [Effect.log LogLevel.debug "Already received Fault, logged in event_log",
              Effect.log LogLevel.traceLvl "uc_err"], ?_, ?_, ?_, ?_⟩
              · simp [handle_single_event, hdb]
              · cases l <;> rfl
              · cases l <;> rfl
              · rfl
          | other o =>
              refine ⟨[Effect.log LogLevel.warn "Fault reported"],
                [Effect.log LogLevel.warn "Unexpected error saving Fault"], ?_, ?_, ?_, ?_⟩
              · simp [handle_single_event, hdb]
              · cases l <;> rfl
              · cases l <;> rfl
              · rfl
  | finalitySignature fs =>
      obtain rfl : DbOp.saveFinalitySignature = op := by
        simpa [saveOp] using hop
      cases hdb : db DbOp.saveFinalitySignature (SseData.finalitySignature fs) id source with
      | ok n =>
          refine ⟨(if l then [Effect.log LogLevel.debug "Finality Signature"] else []),
            [Effect.send (SseData.finalitySignature fs) (acc (SseData.finalitySignature fs))], ?_, ?_, ?_, ?_⟩
          · simp [handle_single_event, hdb]
          · cases l <;> rfl
          · cases l <;> rfl
          · rfl
      | error err =>
          cases err with
          | uniqueConstraint u =>
              refine ⟨(if l then [Effect.log LogLevel.debug "Finality Signature"] else []),
                [Effect.log LogLevel.debug "Already received FinalitySignature, logged in event_log",
              Effect.log LogLevel.traceLvl "uc_err"], ?_, ?_, ?_, ?_⟩
              · simp [handle_single_event, hdb]
              · cases l <;> rfl
              · cases l <;> rfl
              · rfl
          | other o =>
              refine ⟨(if l then [Effect.log LogLevel.debug "Finality Signature"] else []),
                [Effect.log LogLevel.warn "Unexpected error saving FinalitySignature"], ?_, ?_, ?_, ?_⟩
              · simp [handle_single_event, hdb]
              · cases l <;> rfl
              · cases l <;> rfl
              · rfl
  | step e1 ex =>
      obtain rfl : DbOp.saveStep = op := by
        simpa [saveOp] using hop
      cases hdb : db DbOp.saveStep (SseData.step e1 ex) id source with
      | ok n =>
          refine ⟨(if l then [Effect.log LogLevel.info "Step at era"] else []),
            [Effect.send (SseData.step e1 ex) (acc (SseData.step e1 ex))], ?_, ?_, ?_, ?_⟩
          · simp [handle_single_event, hdb]
          · cases l <;> rfl
          · cases l <;> rfl
          · rfl
      | error err =>
          cases err with
          | uniqueConstraint u =>
              refine ⟨(if l then [Effect.log LogLevel.info "Step at era"] else []),
                [Effect.log LogLevel.debug "Already received Step, logged in event_log",
              Effect.log LogLevel.traceLvl "uc_err"], ?_, ?_, ?_, ?_⟩
              · simp [handle_single_event, hdb]
              · cases l <;> rfl
              · cases l <;> rfl
              · rfl
          | other o =>
              refine ⟨(if l then [Effect.log LogLevel.info "Step at era"] else []),
                [Effect.log LogLevel.warn "Unexpected error saving Step"], ?_, ?_, ?_, ?_⟩
              · simp [handle_single_event, hdb]
              · cases l <;> rfl
              · cases l <;> rfl
              · rfl

/-- `sends` distributes over trace concatenation. -/
theorem sends_append (a b : List Effect) : sends (a ++ b) = sends a ++ sends b :=
  List.filterMap_append a b _

/-- The processor's outbound payloads, over a whole inbound queue: the
subsequence of inbound events whose durable-log write returned ok, in order,
projected to their payloads. -/
theorem sends_sse_processor (events : List SseEvent) (db : DbOracle) (l : Bool)
    (acc : SseData → Bool) :
    sends (sse_processor events db l acc) =
      (events.filter fun e => writeOk db e).map SseEvent.data := by
  induction events with
  | nil => rfl
  | cons e rest ih =>
      by_cases h : writeOk db e = true
      · simp [sse_processor, sends_append, sends_handle_single_event, ih,
          List.filter_cons, h]
      · simp [sse_processor, sends_append, sends_handle_single_event, ih,
          List.filter_cons, h]

/-- Collecting reports that are all `Ok` yields exactly the reported
versions. -/
theorem collect_api_versions_all_ok (versions : List Nat) :
    collect_api_versions (versions.map Except.ok) = Except.ok versions := by
  induction versions with
  | nil => rfl
  | cons v rest ih => simp [collect_api_versions, ih, Except.map]

/-- The collection loop returns the first `Err` report as-is: whatever `Ok`
reports precede it are discarded and nothing after it is received. -/
theorem collect_api_versions_first_error (pre : List Nat) (err : String)
    (post : List (Except String Nat)) :
    collect_api_versions (pre.map Except.ok ++ Except.error err :: post) =
      Except.error err := by
  induction pre with
  | nil => rfl
  | cons v rest ih => simp [collect_api_versions, ih, Except.map]

/-- The adjacent-pair version-agreement test is true exactly when the reported
versions are pairwise equal. -/
theorem api_versions_match_iff (versions : List Nat) :
    api_versions_match versions = true ↔
      ∀ a ∈ versions, ∀ b ∈ versions, a = b := by
  induction versions with
  | nil => simp [api_versions_match]
  | cons v0 rest ih =>
      cases rest with
      | nil => simp [api_versions_match]
      | cons v1 rest2 =>
          rw [show api_versions_match (v0 :: v1 :: rest2) =
              ((v0 == v1) && api_versions_match (v1 :: rest2)) from rfl]
          constructor
          · intro h
            rw [Bool.and_eq_true, beq_iff_eq] at h
            obtain ⟨hv, hrest⟩ := h
            have hall : ∀ a ∈ v1 :: rest2, a = v1 := fun a ha =>
              (ih.mp hrest) a ha v1 (List.mem_cons_self v1 rest2)
            intro a ha b hb
            rcases List.mem_cons.mp ha with rfl | ha2
            · rcases List.mem_cons.mp hb with rfl | hb2
              · rfl
              · rw [hv]; exact (hall b hb2).symm
            · rcases List.mem_cons.mp hb with rfl | hb2
              · rw [hall a ha2, hv]
              · rw [hall a ha2, hall b hb2]
          · intro h
            rw [Bool.and_eq_true, beq_iff_eq]
            refine ⟨h v0 (List.mem_cons_self v0 (v1 :: rest2)) v1 (by simp), ih.mpr ?_⟩
            intro a ha b hb
            exact h a (List.mem_cons_of_mem v0 ha) b (List.mem_cons_of_mem v0 hb)

/-- C1: for every dequeued event whose durable-log write returns a
unique-constraint violation, the processor does not send the event on the
outbound channel; an outbound send happens only for an ok write result.  The
statement quantifies over all events, so it covers every variant with a
persistence operation. -/
theorem processor_forwards_only_on_ok_write (e : SseEvent) (db : DbOracle)
    (l : Bool) (acc : SseData → Bool) :
    (∀ uc_err, writeResult db e =
        some (Except.error (DatabaseWriteError.uniqueConstraint uc_err)) →
      sends (handle_single_event e db l acc) = []) ∧
    (sends (handle_single_event e db l acc) ≠ [] →
      ∃ n, writeResult db e = some (Except.ok n)) := by
  constructor
  · intro uc h
    rw [sends_handle_single_event]
    simp [writeOk, h]
  · intro h
    rw [sends_handle_single_event] at h
    by_cases hw : writeOk db e = true
    · unfold writeOk at hw
      rcases hr : writeResult db e with _ | r
      · rw [hr] at hw; simp at hw
      · cases r with
        | ok n => exact ⟨n, rfl⟩
        | error err => rw [hr] at hw; simp at hw
    · simp [hw] at h

/-- C1 witness: a concrete block-added event whose write hits the uniqueness
constraint is not forwarded. -/
theorem processor_forwards_only_on_ok_write_witness :
    sends (handle_single_event ⟨some 0, SseData.blockAdded 1 2, "src"⟩ dbAllUC true
      (fun _ => true)) = [] :=
  (processor_forwards_only_on_ok_write ⟨some 0, SseData.blockAdded 1 2, "src"⟩ dbAllUC true
    (fun _ => true)).1 0 rfl

/-- C3: the payloads the processor sends outbound are, in order, exactly the
payloads of the inbound events whose durable-log write returned ok; and the
processor handles each dequeued event fully before taking the next. -/
theorem processor_preserves_per_source_order (events : List SseEvent) (db : DbOracle)
    (l : Bool) (acc : SseData → Bool) :
    sends (sse_processor events db l acc) =
      (events.filter fun e => writeOk db e).map SseEvent.data ∧
    ∀ e rest, sse_processor (e :: rest) db l acc =
      handle_single_event e db l acc ++ sse_processor rest db l acc :=
  ⟨sends_sse_processor events db l acc, fun _ _ => rfl⟩

/-- C8: an ApiVersion event, wherever it is dequeued, triggers no durable-log
write and no outbound send. -/
theorem apiversion_no_write_no_send (version : Nat) (id : Option Nat) (source : String)
    (db : DbOracle) (l : Bool) (acc : SseData → Bool) :
    dbWrites (handle_single_event ⟨id, SseData.apiVersion version, source⟩ db l acc) = [] ∧
    sends (handle_single_event ⟨id, SseData.apiVersion version, source⟩ db l acc) = [] := by
  cases l <;> exact ⟨rfl, rfl⟩

/-- C10: a dequeued Shutdown event produces exactly one warning naming the
source — no durable-log write, no outbound send — and the processor continues
with the subsequent events. -/
theorem shutdown_only_warns_and_continues (id : Option Nat) (source : String)
    (db : DbOracle) (l : Bool) (acc : SseData → Bool) (rest : List SseEvent) :
    handle_single_event ⟨id, SseData.shutdown, source⟩ db l acc =
      [Effect.log LogLevel.warn ("Node (" ++ source ++ ") is unavailable")] ∧
    dbWrites (handle_single_event ⟨id, SseData.shutdown, source⟩ db l acc) = [] ∧
    sends (handle_single_event ⟨id, SseData.shutdown, source⟩ db l acc) = [] ∧
    sse_processor (⟨id, SseData.shutdown, source⟩ :: rest) db l acc =
      Effect.log LogLevel.warn ("Node (" ++ source ++ ") is unavailable") ::
        sse_processor rest db l acc :=
  ⟨rfl, rfl, rfl, rfl⟩

/-- C6: when the durable-log write returns ok the processor attempts exactly
one outbound send of the event's payload, recording whether the channel
accepted it; the rest of its behaviour does not depend on that acceptance (a
failed send is dropped without an error), and the processor continues with the
subsequent events. -/
theorem ok_write_sends_and_send_failure_is_dropped (e : SseEvent) (db : DbOracle)
    (l : Bool) (acc acc2 : SseData → Bool) (rest : List SseEvent) (n : Nat)
    (hok : writeResult db e = some (Except.ok n)) :
    sendActions (handle_single_event e db l acc) = [Effect.send e.data (acc e.data)] ∧
    eraseSendFlags (handle_single_event e db l acc) =
      eraseSendFlags (handle_single_event e db l acc2) ∧
    sse_processor (e :: rest) db l acc =
      handle_single_event e db l acc ++ sse_processor rest db l acc := by
  refine ⟨?_, eraseSendFlags_handle_single_event e db l acc acc2, rfl⟩
  rw [sendActions_handle_single_event]
  simp [writeOk, hok]

/-- C6 witness: a concrete block-added event with an ok write, against a dead
outbound channel (every send fails), still records exactly one send attempt. -/
theorem ok_write_sends_and_send_failure_is_dropped_witness :
    sendActions (handle_single_event ⟨some 0, SseData.blockAdded 1 2, "src"⟩ dbAllOk true
        (fun _ => false)) =
      [Effect.send (SseData.blockAdded 1 2) false] ∧
    eraseSendFlags (handle_single_event ⟨some 0, SseData.blockAdded 1 2, "src"⟩ dbAllOk true
        (fun _ => false)) =
      eraseSendFlags (handle_single_event ⟨some 0, SseData.blockAdded 1 2, "src"⟩ dbAllOk true
        (fun _ => true)) ∧
    sse_processor (⟨some 0, SseData.blockAdded 1 2, "src"⟩ :: []) dbAllOk true
        (fun _ => false) =
      handle_single_event ⟨some 0, SseData.blockAdded 1 2, "src"⟩ dbAllOk true
          (fun _ => false) ++
        sse_processor [] dbAllOk true (fun _ => false) :=
  ok_write_sends_and_send_failure_is_dropped ⟨some 0, SseData.blockAdded 1 2, "src"⟩ dbAllOk
    true (fun _ => false) (fun _ => true) [] 1 rfl
/-- An other-failure write leaves a warning in the trace. -/
theorem warn_in_handle_of_other_failure (e : SseEvent) (db : DbOracle) (l : Bool)
    (acc : SseData → Bool) (o : Nat)
    (herr : writeResult db e = some (Except.error (DatabaseWriteError.other o))) :
    ∃ msg, Effect.log LogLevel.warn msg ∈ handle_single_event e db l acc := by
  obtain ⟨id, data, source⟩ := e
  cases data with
  | apiVersion v => exact absurd herr (by simp [writeResult, saveOp])
  | shutdown => exact absurd herr (by simp [writeResult, saveOp])
  | blockAdded bh b =>
      have hdb : db DbOp.saveBlockAdded (SseData.blockAdded bh b) id source =
          Except.error (DatabaseWriteError.other o) := by
        simpa [writeResult, saveOp] using herr
      refine ⟨"Unexpected error saving BlockAdded", ?_⟩
      cases l <;> simp [handle_single_event, hdb]
  | deployAccepted d =>
      have hdb : db DbOp.saveDeployAccepted (SseData.deployAccepted d) id source =
          Except.error (DatabaseWriteError.other o) := by
        simpa [writeResult, saveOp] using herr
      refine ⟨"Unexpected error saving DeployAccepted", ?_⟩
      cases l <;> simp [handle_single_event, hdb]
  | deployExpired dh =>
      have hdb : db DbOp.saveDeployExpired (SseData.deployExpired dh) id source =
          Except.error (DatabaseWriteError.other o) := by
        simpa [writeResult, saveOp] using herr
      refine ⟨"Unexpected error saving DeployExpired", ?_⟩
      cases l <;> simp [handle_single_event, hdb]
  | deployProcessed dh a t ttl dep bh er =>
      have hdb : db DbOp.saveDeployProcessed (SseData.deployProcessed dh a t ttl dep bh er) id source =
          Except.error (DatabaseWriteError.other o) := by
        simpa [writeResult, saveOp] using herr
      refine ⟨"Unexpected error saving DeployProcessed", ?_⟩
      cases l <;> simp [handle_single_event, hdb]
  | fault e1 t pk =>
      have hdb : db DbOp.saveFault (SseData.fault e1 t pk) id source =
          Except.error (DatabaseWriteError.other o) := by
        simpa [writeResult, saveOp] using herr
      refine ⟨"Unexpected error saving Fault", ?_⟩
      cases l <;> simp [handle_single_event, hdb]
  | finalitySignature fs =>
      have hdb : db DbOp.saveFinalitySignature (SseData.finalitySignature fs) id source =
          Except.error (DatabaseWriteError.other o) := by
        simpa [writeResult, saveOp] using herr
      refine ⟨"Unexpected error saving FinalitySignature", ?_⟩
      cases l <;> simp [handle_single_event, hdb]
  | step e1 ex =>
      have hdb : db DbOp.saveStep (SseData.step e1 ex) id source =
          Except.error (DatabaseWriteError.other o) := by
        simpa [writeResult, saveOp] using herr
      refine ⟨"Unexpected error saving Step", ?_⟩
      cases l <;> simp [handle_single_event, hdb]

/-- C7: an other-failure from the durable-log write (neither ok nor
unique-constraint) suppresses the outbound send, leaves a warning in the
trace, and the processor returns normally and continues with the subsequent
events. -/
theorem other_failure_warns_drops_and_continues (e : SseEvent) (db : DbOracle)
    (l : Bool) (acc : SseData → Bool) (rest : List SseEvent) (o : Nat)
    (herr : writeResult db e = some (Except.error (DatabaseWriteError.other o))) :
    sends (handle_single_event e db l acc) = [] ∧
    (∃ msg, Effect.log LogLevel.warn msg ∈ handle_single_event e db l acc) ∧
    sse_processor (e :: rest) db l acc =
      handle_single_event e db l acc ++ sse_processor rest db l acc := by
  refine ⟨?_, warn_in_handle_of_other_failure e db l acc o herr, rfl⟩
  rw [sends_handle_single_event]
  simp [writeOk, herr]

/-- C7 witness: a concrete block-added event whose write fails with an
other-failure is not forwarded. -/
theorem other_failure_warns_drops_and_continues_witness :
    sends (handle_single_event ⟨some 0, SseData.blockAdded 1 2, "src"⟩ dbAllOther true
      (fun _ => true)) = [] :=
  (other_failure_warns_drops_and_continues ⟨some 0, SseData.blockAdded 1 2, "src"⟩ dbAllOther
    true (fun _ => true) [] 0 rfl).1

/-- C4 counterexample: it is not the case that every dequeued event leads to a
durable-log write — a dequeued ApiVersion event produces none. -/
theorem not_every_event_writes :
    ¬ (∀ (e : SseEvent) (db : DbOracle) (l : Bool) (acc : SseData → Bool),
        dbWrites (handle_single_event e db l acc) ≠ []) := by
  intro h
  exact h ⟨none, SseData.apiVersion 1, "src"⟩ dbAllOk true (fun _ => true) rfl

/-- C4 (amended): for every dequeued event of a variant with a persistence
operation, the processor calls exactly the matching durable-log write — on the
event's payload, arrival id and source — before branching on the write
outcome: the trace splits into log lines, the single write, and the branch,
with no send before the write. -/
theorem matching_write_called_before_branch (e : SseEvent) (db : DbOracle) (l : Bool)
    (acc : SseData → Bool) (op : DbOp) (hop : saveOp e.data = some op) :
    dbWrites (handle_single_event e db l acc) = [(op, db op e.data e.id e.source)] ∧
    ∃ pre post, handle_single_event e db l acc =
        pre ++ Effect.dbWrite op (db op e.data e.id e.source) :: post ∧
      sends pre = [] ∧ dbWrites pre = [] ∧ dbWrites post = [] := by
  refine ⟨?_, handle_single_event_write_before_branch e db l acc op hop⟩
  simp [dbWrites_handle_single_event, hop]

/-- C4 witness: a concrete block-added event performs exactly its matching
write. -/
theorem matching_write_called_before_branch_witness :
    dbWrites (handle_single_event ⟨some 0, SseData.blockAdded 1 2, "src"⟩ dbAllOk true
        (fun _ => true)) =
      [(DbOp.saveBlockAdded,
        dbAllOk DbOp.saveBlockAdded (SseData.blockAdded 1 2) (some 0) "src")] :=
  (matching_write_called_before_branch ⟨some 0, SseData.blockAdded 1 2, "src"⟩ dbAllOk true
    (fun _ => true) DbOp.saveBlockAdded rfl).1

/-- C5: the adjacent-pair version-agreement test is true exactly when all
reported versions are pairwise equal; consequently, when two reported versions
differ the broadcaster constructs no `EventStreamServer` and broadcasts
nothing. -/
theorem version_agreement_test_correct (versions : List Nat)
    (reports : List (Except String Nat))
    (server_new : Nat → Except String EventStreamServer) (outbound : List SseData) :
    (api_versions_match versions = true ↔ ∀ a ∈ versions, ∀ b ∈ versions, a = b) ∧
    (reports = versions.map Except.ok →
      ∀ a b, a ∈ versions → b ∈ versions → a ≠ b →
        event_broadcasting reports server_new outbound =
          ⟨none, [], Except.error mismatchErrorMsg⟩) := by
  refine ⟨api_versions_match_iff versions, ?_⟩
  rintro rfl a b ha hb hne
  have hm : api_versions_match versions = false := by
    rw [Bool.eq_false_iff]
    intro htrue
    exact hne ((api_versions_match_iff versions).mp htrue a ha b hb)
  simp [event_broadcasting, collect_api_versions_all_ok, hm]

/-- C5 witness: two disagreeing reported versions yield the mismatch error and
no server. -/
theorem version_agreement_test_correct_witness :
    event_broadcasting [Except.ok 1, Except.ok 2] serverNewOk [] =
      ⟨none, [], Except.error mismatchErrorMsg⟩ :=
  (version_agreement_test_correct [1, 2] [Except.ok 1, Except.ok 2] serverNewOk []).2 rfl
    1 2 (by simp) (by simp) (by decide)

/-- If the collection loop returns `Ok`, every report was `Ok` and in order. -/
theorem collect_api_versions_ok_inv (reports : List (Except String Nat)) :
    ∀ versions, collect_api_versions reports = Except.ok versions →
      reports = versions.map Except.ok := by
  induction reports with
  | nil =>
      intro versions h
      simp [collect_api_versions] at h
      simp [← h]
  | cons r rest ih =>
      intro versions h
      cases r with
      | ok v =>
          simp only [collect_api_versions] at h
          cases hr : collect_api_versions rest with
          | ok vs =>
              rw [hr] at h
              simp [Except.map] at h
              subst h
              simp [ih vs hr]
          | error e => rw [hr] at h; simp [Except.map] at h
      | error e => simp [collect_api_versions] at h

/-- C2: the broadcaster task constructs the `EventStreamServer` and begins
broadcasting only when every collected report is `Ok`, the collection is
non-empty and all versions agree; a first `Err` report is returned as-is, a
disagreement yields the mismatch error, and an empty collection yields the
no-sources error, each without constructing the server or broadcasting. -/
theorem broadcaster_starts_only_on_agreement (reports : List (Except String Nat))
    (server_new : Nat → Except String EventStreamServer) (outbound : List SseData) :
    (∀ (pre : List Nat) (err : String) (post : List (Except String Nat)),
      reports = pre.map Except.ok ++ Except.error err :: post →
      event_broadcasting reports server_new outbound = ⟨none, [], Except.error err⟩) ∧
    (∀ (versions : List Nat), reports = versions.map Except.ok →
      ¬ (∀ a ∈ versions, ∀ b ∈ versions, a = b) →
      event_broadcasting reports server_new outbound =
        ⟨none, [], Except.error mismatchErrorMsg⟩) ∧
    (reports = [] →
      event_broadcasting reports server_new outbound =
        ⟨none, [], Except.error noSourcesErrorMsg⟩) ∧
    (∀ srv, (event_broadcasting reports server_new outbound).server = some srv →
      ∃ versions, reports = versions.map Except.ok ∧ versions ≠ [] ∧
        (∀ a ∈ versions, ∀ b ∈ versions, a = b) ∧
        (event_broadcasting reports server_new outbound).broadcasted = outbound) := by
  refine ⟨?_, ?_, ?_, ?_⟩
  · rintro pre err post rfl
    simp [event_broadcasting, collect_api_versions_first_error]
  · rintro versions rfl hne
    have hm : api_versions_match versions = false := by
      rw [Bool.eq_false_iff]
      intro htrue
      exact hne ((api_versions_match_iff versions).mp htrue)
    simp [event_broadcasting, collect_api_versions_all_ok, hm]
  · rintro rfl
    simp [event_broadcasting, collect_api_versions, api_versions_match]
  · intro srv hsrv
    cases hcol : collect_api_versions reports with
    | error e => simp [event_broadcasting, hcol] at hsrv
    | ok versions =>
        refine ⟨versions, collect_api_versions_ok_inv reports versions hcol, ?_, ?_, ?_⟩
        · intro hempty
          subst hempty
          simp [event_broadcasting, hcol, api_versions_match] at hsrv
        · by_cases hm : api_versions_match versions = false
          · simp [event_broadcasting, hcol, hm] at hsrv
          · exact (api_versions_match_iff versions).mp (eq_true_of_ne_false hm)
        · by_cases hm : api_versions_match versions = false
          · simp [event_broadcasting, hcol, hm] at hsrv
          · cases versions with
            | nil => simp [event_broadcasting, hcol, api_versions_match] at hsrv
            | cons v0 rest2 =>
                cases hnew : server_new v0 with
                | error e => simp [event_broadcasting, hcol, hm, hnew] at hsrv
                | ok s => simp [event_broadcasting, hcol, hm, hnew]

/-- C2 witness: an empty report collection yields the no-sources error without
a server. -/
theorem broadcaster_starts_only_on_agreement_witness :
    event_broadcasting [] serverNewOk [] =
      ⟨none, [], Except.error noSourcesErrorMsg⟩ :=
  (broadcaster_starts_only_on_agreement [] serverNewOk []).2.2.1 rfl

/-- Every run of the broadcaster task ends in an error. -/
theorem event_broadcasting_result_is_error (reports : List (Except String Nat))
    (server_new : Nat → Except String EventStreamServer) (outbound : List SseData) :
    ∃ msg, (event_broadcasting reports server_new outbound).result =
      Except.error msg := by
  unfold event_broadcasting
  cases hcol : collect_api_versions reports with
  | error e => exact ⟨e, rfl⟩
  | ok versions =>
      by_cases hm : api_versions_match versions = false
      · simp [hm]
      · cases versions with
        | nil => exact ⟨noSourcesErrorMsg, by simp [api_versions_match]⟩
        | cons v0 rest2 =>
            cases hnew : server_new v0 with
            | error e => simp [hm, hnew]
            | ok srv => simp [hm, hnew]

/-- C9: the supervisor never returns success.  Completion of all ingestion
tasks makes the listening task return the nodes-unavailable error; exhaustion
of the outbound channel (after a successful version phase and server start)
makes the broadcasting task return the broadcasting-finished error; and the
try-join of the three pillar results never yields `Ok`. -/
theorem run_never_returns_ok (reports : List (Except String Nat))
    (server_new : Nat → Except String EventStreamServer) (outbound : List SseData)
    (rest_result : Except String Unit) (sources : List (List SseEvent × Bool))
    (db : DbOracle) (acc : SseData → Bool) :
    (listening_task sources db acc).2 = Except.error nodesUnavailableMsg ∧
    (∀ (versions : List Nat) (srv : EventStreamServer),
      collect_api_versions reports = Except.ok versions →
      api_versions_match versions = true →
      (∃ v0 rest2, versions = v0 :: rest2 ∧ server_new v0 = Except.ok srv) →
      (event_broadcasting reports server_new outbound).result =
        Except.error broadcastingFinishedMsg) ∧
    (∀ u, run_result reports server_new outbound rest_result sources db acc ≠
      Except.ok u) := by
  refine ⟨rfl, ?_, ?_⟩
  · rintro versions srv hcol hmatch ⟨v0, rest2, rfl, hnew⟩
    simp [event_broadcasting, hcol, hmatch, hnew]
  · intro u hrun
    obtain ⟨msg, hmsg⟩ := event_broadcasting_result_is_error reports server_new outbound
    simp [run_result, try_join3, hmsg] at hrun

/-- C9 witness: with one report of version 1, a succeeding server constructor
and an exhausted outbound channel, the broadcasting task returns the
broadcasting-finished error. -/
theorem run_never_returns_ok_witness :
    (event_broadcasting [Except.ok 1] serverNewOk []).result =
      Except.error broadcastingFinishedMsg :=
  (run_never_returns_ok [Except.ok 1] serverNewOk [] (Except.ok ()) [] dbAllOk
    (fun _ => true)).2.1 [1] ⟨1⟩ rfl rfl ⟨1, [], rfl, rfl⟩
